import Mathlib

/-!
# Verification of the cloud-hypervisor-provider machine reconciler

A shallow embedding of the machine reconciliation engine of
`ironcore-dev/cloud-hypervisor-provider` (Go), together with proofs about it.

Embedded source files:
* `internal/controllers/machine_controller.go` — NIC id encoding/decoding,
  the reconcile loop, teardown, volume/NIC reconciliation, finalizer handling,
  and the worker loop.
* `internal/vmm/manager.go` — the `CreateVM` payload construction.
* `internal/host/paths.go` — machine directory layout (only the paths the
  reconciler touches).

Go strings are modelled as `List Char`; Go's `nil`-able pointers as `Option`;
Go errors as an explicit error type with the sentinel values the code
distinguishes with `errors.Is`.  External collaborators (the object store, the
VMM process, volume plugins, the image cache) are modelled as an oracle
environment supplying the result of each call; the reconciler is embedded as a
function from that environment to the ordered list of calls it makes (its
effect trace) plus its returned error.
-/

namespace CHP

/-- Go strings, modelled as their character sequences. -/
abbrev GoStr := List Char

/-- `hasDD s` holds when `"--"` occurs as a substring of `s`
(Go `strings.Contains(s, "--")`). -/
def hasDD : GoStr → Bool
  | [] => false
  | [_] => false
  | c1 :: c2 :: rest => (c1 = '-' && c2 = '-') || hasDD (c2 :: rest)

/-- Go `strings.Split(s, "--")`: split around each leftmost, non-overlapping
occurrence of the two-character separator `"--"`. -/
def splitDD : GoStr → List GoStr
  | [] => [[]]
  | [c] => [[c]]
  | c1 :: c2 :: rest =>
    if c1 = '-' && c2 = '-' then
      [] :: splitDD rest
    else
      match splitDD (c2 :: rest) with
      | [] => [[c1]]
      | p :: ps => (c1 :: p) :: ps

/-- `machine_controller.go` `getNicID`:
`fmt.Sprintf("%s--%s--%s", "NIC", machineID, nicName)`. -/
def getNicID (machineID nicName : GoStr) : GoStr :=
  'N' :: 'I' :: 'C' :: '-' :: '-' :: (machineID ++ '-' :: '-' :: nicName)

/-- `machine_controller.go` `getNicName`: split the id on `"--"`; require
exactly three parts with head `"NIC"`; return the third part. -/
def getNicName (id : GoStr) : Option GoStr :=
  let parts := splitDD id
  if parts.length = 3 then
    if parts.getD 0 [] = ['N', 'I', 'C'] then some (parts.getD 2 []) else none
  else none

/-- `machine_controller.go` `getMachineNameFromNicID`: same shape check,
return the second part. -/
def getMachineNameFromNicID (id : GoStr) : Option GoStr :=
  let parts := splitDD id
  if parts.length = 3 then
    if parts.getD 0 [] = ['N', 'I', 'C'] then some (parts.getD 1 []) else none
  else none

/-- The NIC-store event handler of `MachineReconciler.Start`: on an event for
object `id` it enqueues the decoded machine id, when the id decodes; otherwise
it enqueues nothing.  `queue` is the enqueue trace. -/
def nicEventHandle (queue : List GoStr) (id : GoStr) : List GoStr :=
  match getMachineNameFromNicID id with
  | some machineID => queue ++ [machineID]
  | none => queue

/-! ## Data model (`api` package, reconstructed from its use sites and §3 of
the specification; the `api` type declarations themselves are not among the
provided sources) -/

/-- `api.PowerState`. -/
inductive PowerState
  | powerOn
  | powerOff
deriving DecidableEq

/-- `api.VolumeState`: Pending / Prepared / Attached. -/
inductive VolumeState
  | pending
  | prepared
  | attached
deriving DecidableEq

/-- `api.NetworkInterfaceState`; in Go this is a string type whose zero value
is the empty string, represented by `unspecified`. -/
inductive NicState
  | unspecified
  | pending
  | attached
deriving DecidableEq

/-- `api.MachineState`: Pending / Running / Terminated. -/
inductive MachineState
  | pending
  | running
  | terminated
deriving DecidableEq

/-- `api.VolumeSpec`: name, deletion timestamp, connection handle (the other
connection attributes are opaque to the reconciler). -/
structure VolumeSpec where
  name : GoStr
  deletedAt : Option Nat
  connectionHandle : GoStr
deriving DecidableEq

/-- `api.VolumeStatus`. -/
structure VolumeStatus where
  name : GoStr
  handle : GoStr
  state : VolumeState
deriving DecidableEq

/-- `api.NetworkInterfaceSpec` entry of a machine spec. -/
structure NicSpec where
  name : GoStr
  networkId : GoStr
  ips : List GoStr
  attributes : List (GoStr × GoStr)
  deletedAt : Option Nat
deriving DecidableEq

/-- `api.NetworkInterface`: the sibling store entity, with metadata id,
copied spec fields, finalizers and status. -/
structure NetworkInterface where
  id : GoStr
  name : GoStr
  networkId : GoStr
  ips : List GoStr
  attributes : List (GoStr × GoStr)
  finalizers : List GoStr
  statusState : NicState
  statusHandle : GoStr
  deletedAt : Option Nat
deriving DecidableEq

/-- `api.MachineNetworkInterfaceStatus`. -/
structure MachineNicStatus where
  name : GoStr
  state : NicState
  handle : GoStr
deriving DecidableEq

/-- `api.MachineSpec`. -/
structure MachineSpec where
  power : PowerState
  cpuMillis : Int
  memoryBytes : Int
  image : Option GoStr
  apiSocketPath : Option GoStr
  volumes : List VolumeSpec
  networkInterfaces : List NicSpec
deriving DecidableEq

/-- `api.MachineStatus`. -/
structure MachineStatus where
  state : MachineState
  volumeStatus : List VolumeStatus
  nicStatus : List MachineNicStatus
deriving DecidableEq

/-- `api.Machine`: metadata (id, finalizers, deletion timestamp), spec and
status. -/
structure Machine where
  id : GoStr
  finalizers : List GoStr
  deletedAt : Option Nat
  spec : MachineSpec
  status : MachineStatus
deriving DecidableEq

/-- `client.VmInfoState` of the cloud-hypervisor client. -/
inductive VmState
  | created
  | running
  | shutdown
  | paused
deriving DecidableEq

/-- `client.PlatformConfig` (only the uuid is inspected). -/
structure PlatformConfig where
  uuid : Option GoStr
deriving DecidableEq

/-- `client.DeviceConfig` (only the id is inspected). -/
structure DeviceConfig where
  id : Option GoStr
deriving DecidableEq

/-- `client.DiskConfig` (id and path are the fields the reconciler and the
VMM manager touch). -/
structure DiskConfig where
  id : Option GoStr
  path : GoStr
deriving DecidableEq

/-- `client.VmConfig` (the inspected fields). -/
structure VmConfig where
  platform : Option PlatformConfig
  devices : Option (List DeviceConfig)
  disks : Option (List DiskConfig)
deriving DecidableEq

/-- `client.VmInfo`. -/
structure VmInfo where
  state : VmState
  config : VmConfig
deriving DecidableEq

/-! ## Errors and effects -/

/-- Go error values, collapsed to the variants the reconciler distinguishes
with `errors.Is` plus the two distinguished errors it constructs itself.
`fmt.Errorf("...: %w", err)` wrapping preserves `errors.Is`, so wrapping is
modelled as the identity on the wrapped sentinel; `wrappedNil` stands for the
non-nil error produced by wrapping a nil error with `fmt.Errorf`. -/
inductive GoErr
  | notFound
  | vmNotCreated
  | imagePulling
  | identityMismatch
  | wrappedNil
  | other
deriving DecidableEq

/-- One external call made by the reconciler, in order.  Store reads/writes,
filesystem operations, image-cache lookups, VMM-manager and volume-plugin
calls, and self-requeues. -/
inductive Effect
  | storeGetMachine (id : GoStr)
  | storeUpdateMachine (m : Machine)
  | makeMachineDirs (id : GoStr)
  | imageCacheGet (ref : GoStr)
  | checkRootFS (path : GoStr)
  | rawCreate (path : GoStr)
  | vmmGetFreeApiSocket
  | vmmPing (socket : GoStr)
  | storeGetNic (id : GoStr)
  | storeCreateNic (nic : NetworkInterface)
  | storeUpdateNic (nic : NetworkInterface)
  | storeDeleteNic (id : GoStr)
  | pluginApply (volName : GoStr)
  | pluginDelete (handle : GoStr)
  | vmmGetVM (socket : GoStr)
  | vmmCreateVM (machineId : GoStr)
  | vmmPowerOn (socket : GoStr)
  | vmmPowerOff (target : GoStr)
  | vmmDeleteVM (machineId : GoStr)
  | removeMachineDir (id : GoStr)
  | vmmAddDisk (socket : GoStr) (st : VolumeStatus)
  | vmmRemoveDevice (socket : GoStr) (devId : GoStr)
  | vmmAddNIC (socket : GoStr) (nicId : GoStr)
  | queueAdd (id : GoStr)
deriving DecidableEq

/-- The oracle environment: the outcome each external collaborator returns
for a call during one reconcile pass.  `Option GoErr` results use `none` for
a nil Go error; `Except` results carry the returned value on success. -/
structure Env where
  getMachine : GoStr → Except GoErr Machine
  updateMachine : Machine → Except GoErr Machine
  makeDirs : GoStr → Option GoErr
  imageGet : GoStr → Except GoErr GoStr
  fileExists : GoStr → Except GoErr Bool
  rawCreate : GoStr → Option GoErr
  getFreeApiSocket : Except GoErr (Option GoStr)
  ping : GoStr → Option GoErr
  nicGet : GoStr → Except GoErr NetworkInterface
  nicCreate : NetworkInterface → Except GoErr NetworkInterface
  nicUpdate : NetworkInterface → Except GoErr NetworkInterface
  nicDelete : GoStr → Option GoErr
  findPlugin : VolumeSpec → Option GoErr
  pluginApply : VolumeSpec → GoStr → Except GoErr VolumeStatus
  pluginDelete : GoStr → GoStr → Option GoErr
  getVM : GoStr → Except GoErr VmInfo
  createVM : GoStr → Option GoErr
  powerOn : GoStr → Option GoErr
  powerOff : GoStr → Option GoErr
  vmmDelete : GoStr → Option GoErr
  removeDir : GoStr → Option GoErr
  addDisk : GoStr → VolumeStatus → Option GoErr
  removeDevice : GoStr → GoStr → Option GoErr
  addNIC : GoStr → GoStr → Option GoErr

/-! ## Small helpers from the controller -/

/-- The `MachineFinalizer` constant `"machine"`. -/
def machineFinalizer : GoStr := ['m', 'a', 'c', 'h', 'i', 'n', 'e']

/-- Go `slices.Contains` on string slices. -/
def goSlicesContains (xs : List GoStr) (x : GoStr) : Bool :=
  xs.any fun y => y = x

/-- Modelled from the spec: the external helper `utils.DeleteSliceElement`
(provider-utils, not part of this repository's sources).  The spec treats
finalizers as a set of string tags whose strip removes the tag, so removal
drops every occurrence (the `slices.DeleteFunc` behaviour). -/
def deleteSliceElement (xs : List GoStr) (x : GoStr) : List GoStr :=
  xs.filter fun y => y ≠ x

/-- `machine_controller.go` `getVolumeStatus`: first status with the given
name, defaulting to a Pending status for that name. -/
def getVolumeStatus (volumes : List VolumeStatus) (name : GoStr) : VolumeStatus :=
  match volumes.find? (fun vol => vol.name = name) with
  | some vol => vol
  | none => { name := name, handle := [], state := VolumeState.pending }

/-- `internal/host/paths.go` machine directory (relative to the provider
root directory). -/
def machineDir (id : GoStr) : GoStr :=
  ['m', 'a', 'c', 'h', 'i', 'n', 'e', 's', '/'] ++ id

/-- `internal/host/paths.go` machine root-FS file path. -/
def machineRootFSFile (id : GoStr) : GoStr :=
  machineDir id ++ ['/', 'r', 'o', 'o', 't', 'f', 's', '/', 'r', 'o', 'o', 't', 'f', 's']

/-- `machine_controller.go` `addFinalizerToNIC`: no-op when the `"machine"`
finalizer is already present, otherwise append it and issue a store update.
Returns (effects, error, resulting NIC state — the Go NIC pointer is mutated
before the update is issued). -/
def addFinalizerToNIC (env : Env) (nic : NetworkInterface) :
    List Effect × Option GoErr × NetworkInterface :=
  if goSlicesContains nic.finalizers machineFinalizer then ([], none, nic)
  else
    let nic' := { nic with finalizers := nic.finalizers ++ [machineFinalizer] }
    match env.nicUpdate nic' with
    | Except.error e => ([Effect.storeUpdateNic nic'], some e, nic')
    | Except.ok _ => ([Effect.storeUpdateNic nic'], none, nic')

/-- `machine_controller.go` `removeFinalizerFromNIC`: no-op when the
`"machine"` finalizer is absent, otherwise delete it and issue a store
update. -/
def removeFinalizerFromNIC (env : Env) (nic : NetworkInterface) :
    List Effect × Option GoErr × NetworkInterface :=
  if ¬ goSlicesContains nic.finalizers machineFinalizer then ([], none, nic)
  else
    let nic' := { nic with finalizers := deleteSliceElement nic.finalizers machineFinalizer }
    match env.nicUpdate nic' with
    | Except.error e => ([Effect.storeUpdateNic nic'], some e, nic')
    | Except.ok _ => ([Effect.storeUpdateNic nic'], none, nic')

/-- `machine_controller.go` `nicsReady` over the materialised NIC map (kept
as an association list in materialisation order). -/
def nicsReady (nics : List (GoStr × NetworkInterface)) : Bool :=
  nics.all fun p => p.2.statusState = NicState.attached

/-! ## Teardown (`deleteMachine`) -/

/-- `machine_controller.go` `getMachineState`: probe the VM through the
manager; the not-found and vm-not-created sentinels read as `Shutdown`; a
live VM reads `Running` exactly when its state is `Running`. -/
def getMachineState (env : Env) (machine : Machine) :
    List Effect × Except GoErr VmState :=
  match env.getVM (machine.spec.apiSocketPath.getD []) with
  | Except.error e =>
    if e = GoErr.vmNotCreated ∨ e = GoErr.notFound then
      ([Effect.vmmGetVM (machine.spec.apiSocketPath.getD [])], Except.ok VmState.shutdown)
    else ([Effect.vmmGetVM (machine.spec.apiSocketPath.getD [])], Except.error e)
  | Except.ok vm =>
    ([Effect.vmmGetVM (machine.spec.apiSocketPath.getD [])],
      Except.ok (if vm.state = VmState.running then VmState.running else VmState.shutdown))

/-- The result mapping of `if err := call(); !errors.Is(err, vmm.ErrNotFound)
\x7b return fmt.Errorf("...: %w", err) \x7d`: only the not-found sentinel lets the
caller continue; any other error is wrapped and returned, and a nil error is
also wrapped (into a non-nil error) and returned. -/
def failUnlessNotFound (res : Option GoErr) : Option GoErr :=
  match res with
  | some GoErr.notFound => none
  | some e => some e
  | none => some GoErr.wrappedNil

/-- The NIC sweep of `deleteMachine` over `machine.Spec.NetworkInterfaces`:
for each referenced NIC still in the store, strip its finalizer and delete
it, recording that not all NICs were gone yet.  Returns (effects, whether
every referenced NIC was already absent, error). -/
def deleteNicsLoop (env : Env) (machineId : GoStr) :
    List NicSpec → List Effect × Bool × Option GoErr
  | [] => ([], true, none)
  | machineNic :: rest =>
    let nicName := getNicID machineId machineNic.name
    match env.nicGet nicName with
    | Except.error GoErr.notFound =>
      let (tr, allDel, res) := deleteNicsLoop env machineId rest
      (Effect.storeGetNic nicName :: tr, allDel, res)
    | Except.error e =>
      -- a non-not-found store error: the Go code would dereference a nil
      -- NIC pointer here; surface the store error
      ([Effect.storeGetNic nicName], false, some e)
    | Except.ok nic =>
      let (trF, errF, _) := removeFinalizerFromNIC env nic
      match errF with
      | some e => (Effect.storeGetNic nicName :: trF, false, some e)
      | none =>
        let delErr := env.nicDelete nicName
        if delErr = none ∨ delErr = some GoErr.notFound then
          let (tr, _, res) := deleteNicsLoop env machineId rest
          (Effect.storeGetNic nicName :: trF ++ Effect.storeDeleteNic nicName :: tr, false, res)
        else
          (Effect.storeGetNic nicName :: trF ++ [Effect.storeDeleteNic nicName], false,
            delErr.getD GoErr.other |> some)

/-- `machine_controller.go` `deleteMachine`: probe state; if Running, power
off through the `failUnlessNotFound` gate; kill the VMM through the same
gate; sweep the referenced NICs; if any NIC still existed, return nil and
wait; otherwise remove the machine directory, strip the `"machine"`
finalizer and persist (ignoring a not-found store error). -/
def deleteMachine (env : Env) (machine : Machine) : List Effect × Option GoErr :=
  let (trState, stateRes) := getMachineState env machine
  match stateRes with
  | Except.error e => (trState, some e)
  | Except.ok state =>
    let (trPow, powErr) :=
      if state = VmState.running then
        ([Effect.vmmPowerOff machine.id], failUnlessNotFound (env.powerOff machine.id))
      else ([], none)
    match powErr with
    | some e => (trState ++ trPow, some e)
    | none =>
      match failUnlessNotFound (env.vmmDelete machine.id) with
      | some e => (trState ++ trPow ++ [Effect.vmmDeleteVM machine.id], some e)
      | none =>
        let (trNics, allNicsDeleted, nicErr) :=
          deleteNicsLoop env machine.id machine.spec.networkInterfaces
        let tr := trState ++ trPow ++ Effect.vmmDeleteVM machine.id :: trNics
        match nicErr with
        | some e => (tr, some e)
        | none =>
          if ¬ allNicsDeleted then (tr, none)
          else
            match env.removeDir (machineDir machine.id) with
            | some e => (tr ++ [Effect.removeMachineDir machine.id], some e)
            | none =>
              let machine' := { machine with
                finalizers := deleteSliceElement machine.finalizers machineFinalizer }
              let tr' := tr ++ [Effect.removeMachineDir machine.id,
                Effect.storeUpdateMachine machine']
              match env.updateMachine machine' with
              | Except.error e =>
                if e = GoErr.notFound then (tr', none) else (tr', some e)
              | Except.ok _ => (tr', none)

/-! ## Image, NIC materialisation, volumes, hot-plug -/

/-- `machine_controller.go` `reconcileImage`: no image means skip; a pulling
image requests a requeue without error; a cached image materialises the
root-FS file when it does not already exist.  Returns (effects, requeue,
error). -/
def reconcileImage (env : Env) (machine : Machine) :
    List Effect × Bool × Option GoErr :=
  match machine.spec.image with
  | none => ([], false, none)
  | some image =>
    if image = [] then ([], false, none)
    else
      match env.imageGet image with
      | Except.error e =>
        if e = GoErr.imagePulling then ([Effect.imageCacheGet image], true, none)
        else ([Effect.imageCacheGet image], false, some e)
      | Except.ok _ =>
        let rootFSFile := machineRootFSFile machine.id
        match env.fileExists rootFSFile with
        | Except.error e =>
          ([Effect.imageCacheGet image, Effect.checkRootFS rootFSFile], false, some e)
        | Except.ok true =>
          ([Effect.imageCacheGet image, Effect.checkRootFS rootFSFile], false, none)
        | Except.ok false =>
          match env.rawCreate rootFSFile with
          | some e =>
            ([Effect.imageCacheGet image, Effect.checkRootFS rootFSFile,
              Effect.rawCreate rootFSFile], false, some e)
          | none =>
            ([Effect.imageCacheGet image, Effect.checkRootFS rootFSFile,
              Effect.rawCreate rootFSFile], false, none)

/-- The NIC materialisation loop inlined in `reconcileMachine`: look up each
referenced NIC object; create it when absent (unless marked deleted, which
skips); delete it from the store when marked deleted; collect the resulting
name-to-NIC map (kept as an association list in iteration order). -/
def materialiseNicsLoop (env : Env) (machine : Machine) :
    List NicSpec → List Effect × Except GoErr (List (GoStr × NetworkInterface))
  | [] => ([], Except.ok [])
  | ni :: rest =>
    let nicID := getNicID machine.id ni.name
    let resolved : List Effect × Except GoErr (Option NetworkInterface) :=
      match env.nicGet nicID with
      | Except.error e =>
        if e ≠ GoErr.notFound then ([Effect.storeGetNic nicID], Except.error e)
        else if ni.deletedAt.isSome then ([Effect.storeGetNic nicID], Except.ok none)
        else
          let newNic : NetworkInterface :=
            { id := nicID, name := ni.name, networkId := ni.networkId,
              ips := ni.ips, attributes := ni.attributes, finalizers := [],
              statusState := NicState.unspecified, statusHandle := [],
              deletedAt := none }
          match env.nicCreate newNic with
          | Except.error e2 =>
            ([Effect.storeGetNic nicID, Effect.storeCreateNic newNic], Except.error e2)
          | Except.ok nic =>
            ([Effect.storeGetNic nicID, Effect.storeCreateNic newNic], Except.ok (some nic))
      | Except.ok nic => ([Effect.storeGetNic nicID], Except.ok (some nic))
    match resolved with
    | (tr0, Except.error e) => (tr0, Except.error e)
    | (tr0, Except.ok none) =>
      let (tr, res) := materialiseNicsLoop env machine rest
      (tr0 ++ tr, res)
    | (tr0, Except.ok (some nic)) =>
      if ni.deletedAt.isSome then
        match env.nicDelete nicID with
        | some e => (tr0 ++ [Effect.storeDeleteNic nicID], Except.error e)
        | none =>
          let (tr, res) := materialiseNicsLoop env machine rest
          (tr0 ++ Effect.storeDeleteNic nicID :: tr,
            match res with
            | Except.ok xs => Except.ok ((ni.name, nic) :: xs)
            | Except.error e => Except.error e)
      else
        let (tr, res) := materialiseNicsLoop env machine rest
        (tr0 ++ tr,
          match res with
          | Except.ok xs => Except.ok ((ni.name, nic) :: xs)
          | Except.error e => Except.error e)

/-- The per-volume loop of `reconcileVolumes`: a volume marked deleted and
not currently Attached is deleted through its plugin and dropped; otherwise
the plugin's Apply result is taken, with an Attached current state preserved
over whatever state Apply returned.  Returns (effects, (kept specs, new
status list)). -/
def reconcileVolumesLoop (env : Env) (machine : Machine) :
    List VolumeSpec → List Effect × Except GoErr (List VolumeSpec × List VolumeStatus)
  | [] => ([], Except.ok ([], []))
  | vol :: rest =>
    match env.findPlugin vol with
    | some e => ([], Except.error e)
    | none =>
      let status := getVolumeStatus machine.status.volumeStatus vol.name
      if vol.deletedAt.isSome ∧ status.state ≠ VolumeState.attached then
        match env.pluginDelete vol.connectionHandle machine.id with
        | some e => ([Effect.pluginDelete vol.connectionHandle], Except.error e)
        | none =>
          let (tr, res) := reconcileVolumesLoop env machine rest
          (Effect.pluginDelete vol.connectionHandle :: tr, res)
      else
        match env.pluginApply vol machine.id with
        | Except.error e => ([Effect.pluginApply vol.name], Except.error e)
        | Except.ok applied =>
          let applied' :=
            if status.state = VolumeState.attached then
              { applied with state := status.state }
            else applied
          let (tr, res) := reconcileVolumesLoop env machine rest
          (Effect.pluginApply vol.name :: tr,
            match res with
            | Except.ok (specs, statuses) => Except.ok (vol :: specs, applied' :: statuses)
            | Except.error e => Except.error e)

/-- `machine_controller.go` `reconcileVolumes`: run the per-volume loop, then
write the surviving specs and the rebuilt status list back to the machine
store.  Returns (effects, error, the machine object as mutated). -/
def reconcileVolumes (env : Env) (machine : Machine) :
    List Effect × Option GoErr × Machine :=
  let (tr, res) := reconcileVolumesLoop env machine machine.spec.volumes
  match res with
  | Except.error e => (tr, some e, machine)
  | Except.ok (specs, statuses) =>
    let machine' := { machine with
      spec := { machine.spec with volumes := specs },
      status := { machine.status with volumeStatus := statuses } }
    match env.updateMachine machine' with
    | Except.error e => (tr ++ [Effect.storeUpdateMachine machine'], some e, machine')
    | Except.ok _ => (tr ++ [Effect.storeUpdateMachine machine'], none, machine')

/-- The device sweep of `reconcileNics`: walk the VM's live devices; a device
whose id decodes to a desired, not-deleted NIC is recorded as present; one
decoding to a deleted NIC is hot-removed and its finalizer stripped. -/
def reconcileNicsDevices (env : Env) (apiSocket : GoStr)
    (desiredNics : List (GoStr × NetworkInterface)) :
    List DeviceConfig → List Effect × Except GoErr (List GoStr)
  | [] => ([], Except.ok [])
  | device :: rest =>
    let deviceID := device.id.getD []
    match getNicName deviceID with
    | none =>
      let (tr, res) := reconcileNicsDevices env apiSocket desiredNics rest
      (tr, res)
    | some nicName =>
      match desiredNics.find? (fun p => p.1 = nicName) with
      | none =>
        let (tr, res) := reconcileNicsDevices env apiSocket desiredNics rest
        (tr, res)
      | some p =>
        if p.2.deletedAt = none then
          let (tr, res) := reconcileNicsDevices env apiSocket desiredNics rest
          (tr,
            match res with
            | Except.ok xs => Except.ok (nicName :: xs)
            | Except.error e => Except.error e)
        else
          match env.removeDevice apiSocket deviceID with
          | some e => ([Effect.vmmRemoveDevice apiSocket deviceID], Except.error e)
          | none =>
            let (trF, errF, _) := removeFinalizerFromNIC env p.2
            match errF with
            | some e => (Effect.vmmRemoveDevice apiSocket deviceID :: trF, Except.error e)
            | none =>
              let (tr, res) := reconcileNicsDevices env apiSocket desiredNics rest
              (Effect.vmmRemoveDevice apiSocket deviceID :: trF ++ tr, res)

/-- The add sweep of `reconcileNics`: every desired, not-deleted NIC not
found among the live devices gets its finalizer first, then is hot-plugged. -/
def reconcileNicsAdd (env : Env) (apiSocket : GoStr) (currentNICs : List GoStr) :
    List (GoStr × NetworkInterface) → List Effect × Option GoErr
  | [] => ([], none)
  | p :: rest =>
    if p.2.deletedAt.isSome then reconcileNicsAdd env apiSocket currentNICs rest
    else if goSlicesContains currentNICs p.1 then
      reconcileNicsAdd env apiSocket currentNICs rest
    else
      let (trF, errF, _) := addFinalizerToNIC env p.2
      match errF with
      | some e => (trF, some e)
      | none =>
        match env.addNIC apiSocket p.2.id with
        | some e => (trF ++ [Effect.vmmAddNIC apiSocket p.2.id], some e)
        | none =>
          let (tr, res) := reconcileNicsAdd env apiSocket currentNICs rest
          (trF ++ Effect.vmmAddNIC apiSocket p.2.id :: tr, res)

/-- `machine_controller.go` `reconcileNics`: the device sweep followed by the
add sweep. -/
def reconcileNics (env : Env) (machine : Machine)
    (desiredNics : List (GoStr × NetworkInterface))
    (currentDevices : List DeviceConfig) : List Effect × Option GoErr :=
  let apiSocket := machine.spec.apiSocketPath.getD []
  let (trD, devRes) := reconcileNicsDevices env apiSocket desiredNics currentDevices
  match devRes with
  | Except.error e => (trD, some e)
  | Except.ok currentNICs =>
    let (trA, res) := reconcileNicsAdd env apiSocket currentNICs desiredNics
    (trD ++ trA, res)

/-- The per-volume loop of `attachDetachDisks`: attach Prepared volumes whose
disk is not live (marking them Attached), mark live ones Attached, hot-remove
disks of deleted volumes, and downgrade deleted volumes without a live disk
to Prepared. -/
def attachDetachLoop (env : Env) (apiSocket : GoStr)
    (statusList : List VolumeStatus) (currentDevices : List GoStr) :
    List VolumeSpec → List Effect × Except GoErr (List VolumeStatus)
  | [] => ([], Except.ok [])
  | vol :: rest =>
    let status := getVolumeStatus statusList vol.name
    if vol.deletedAt = none then
      if ¬ goSlicesContains currentDevices status.handle then
        if status.state ≠ VolumeState.prepared then
          attachDetachLoop env apiSocket statusList currentDevices rest
        else
          match env.addDisk apiSocket status with
          | some e => ([Effect.vmmAddDisk apiSocket status], Except.error e)
          | none =>
            let (tr, res) := attachDetachLoop env apiSocket statusList currentDevices rest
            (Effect.vmmAddDisk apiSocket status :: tr,
              match res with
              | Except.ok xs => Except.ok ({ status with state := VolumeState.attached } :: xs)
              | Except.error e => Except.error e)
      else
        let (tr, res) := attachDetachLoop env apiSocket statusList currentDevices rest
        (tr,
          match res with
          | Except.ok xs => Except.ok ({ status with state := VolumeState.attached } :: xs)
          | Except.error e => Except.error e)
    else
      if goSlicesContains currentDevices status.handle then
        match env.removeDevice apiSocket status.handle with
        | some e => ([Effect.vmmRemoveDevice apiSocket status.handle], Except.error e)
        | none =>
          let (tr, res) := attachDetachLoop env apiSocket statusList currentDevices rest
          (Effect.vmmRemoveDevice apiSocket status.handle :: tr,
            match res with
            | Except.ok xs => Except.ok (status :: xs)
            | Except.error e => Except.error e)
      else
        let (tr, res) := attachDetachLoop env apiSocket statusList currentDevices rest
        (tr,
          match res with
          | Except.ok xs => Except.ok ({ status with state := VolumeState.prepared } :: xs)
          | Except.error e => Except.error e)

/-- `machine_controller.go` `attachDetachDisks`: run the loop against the ids
of the VM's live disks, then persist the rebuilt volume status list. -/
def attachDetachDisks (env : Env) (machine : Machine) (vm : VmConfig) :
    List Effect × Option GoErr × Machine :=
  let apiSocket := machine.spec.apiSocketPath.getD []
  let currentDevices := (vm.disks.getD []).filterMap (fun d => d.id)
  let (tr, res) :=
    attachDetachLoop env apiSocket machine.status.volumeStatus currentDevices
      machine.spec.volumes
  match res with
  | Except.error e => (tr, some e, machine)
  | Except.ok updated =>
    let machine' := { machine with
      status := { machine.status with volumeStatus := updated } }
    match env.updateMachine machine' with
    | Except.error e => (tr ++ [Effect.storeUpdateMachine machine'], some e, machine')
    | Except.ok _ => (tr ++ [Effect.storeUpdateMachine machine'], none, machine')

/-! ## The reconcile pass -/

/-- The power switch of `reconcileMachine`: drive the VM towards
`spec.power`, issuing boot or power-button only when the live state does not
already match. -/
def drivePower (env : Env) (apiSocket : GoStr) (power : PowerState)
    (vmState : VmState) : List Effect × Option GoErr :=
  match power with
  | PowerState.powerOn =>
    if vmState ≠ VmState.running then
      ([Effect.vmmPowerOn apiSocket], env.powerOn apiSocket)
    else ([], none)
  | PowerState.powerOff =>
    if vmState = VmState.running then
      ([Effect.vmmPowerOff apiSocket], env.powerOff apiSocket)
    else ([], none)

/-- The status rebuild of `reconcileMachine`: one entry per NIC in the spec,
Pending unless the materialised NIC object reports Attached, in which case
the handle is copied. -/
def machineNicStatusList (nics : List (GoStr × NetworkInterface))
    (specs : List NicSpec) : List MachineNicStatus :=
  specs.map fun nic =>
    match nics.find? (fun p => p.1 = nic.name) with
    | some p =>
      if p.2.statusState = NicState.attached then
        { name := nic.name, state := NicState.attached, handle := p.2.statusHandle }
      else { name := nic.name, state := NicState.pending, handle := [] }
    | none => { name := nic.name, state := NicState.pending, handle := [] }

/-- The post-create loop of `reconcileMachine`: add the `"machine"`
finalizer to every materialised NIC. -/
def addFinalizersLoop (env : Env) :
    List (GoStr × NetworkInterface) → List Effect × Option GoErr
  | [] => ([], none)
  | p :: rest =>
    let (trF, errF, _) := addFinalizerToNIC env p.2
    match errF with
    | some e => (trF, some e)
    | none =>
      let (tr, res) := addFinalizersLoop env rest
      (trF ++ tr, res)

/-- The tail of `reconcileMachine` from the VMM ping on (lines 472-607 of
`machine_controller.go`): ping, NIC materialisation, volume reconciliation,
live-VM fetch; on vm-not-created either wait for NICs or create the VM, add
NIC finalizers and self-requeue; on a live VM check identity, drive power,
hot-plug NICs and disks, and persist the recomputed status. -/
def reconcileAfterSocket (env : Env) (machine : Machine) :
    List Effect × Option GoErr :=
  let apiSocket := machine.spec.apiSocketPath.getD []
  let rest : List Effect × Option GoErr :=
    match env.ping apiSocket with
    | some e => ([], some e)
    | none =>
      let (trN, nicsRes) := materialiseNicsLoop env machine machine.spec.networkInterfaces
      match nicsRes with
      | Except.error e => (trN, some e)
      | Except.ok nics =>
        let (trV, volErr, machine₁) := reconcileVolumes env machine
        match volErr with
        | some e => (trN ++ trV, some e)
        | none =>
          match env.getVM apiSocket with
          | Except.error e =>
            if e ≠ GoErr.vmNotCreated then
              (trN ++ trV ++ [Effect.vmmGetVM apiSocket], some e)
            else if ¬ nicsReady nics then
              (trN ++ trV ++ [Effect.vmmGetVM apiSocket], none)
            else
              match env.createVM machine₁.id with
              | some e =>
                (trN ++ trV ++ [Effect.vmmGetVM apiSocket,
                  Effect.vmmCreateVM machine₁.id], some e)
              | none =>
                let (trF, finErr) := addFinalizersLoop env nics
                match finErr with
                | some e =>
                  (trN ++ trV ++ Effect.vmmGetVM apiSocket ::
                    Effect.vmmCreateVM machine₁.id :: trF, some e)
                | none =>
                  (trN ++ trV ++ Effect.vmmGetVM apiSocket ::
                    Effect.vmmCreateVM machine₁.id :: trF ++
                    [Effect.queueAdd machine₁.id], none)
          | Except.ok vm =>
            let pre := trN ++ trV ++ [Effect.vmmGetVM apiSocket]
            let platformUuid := ((vm.config.platform.getD { uuid := none }).uuid).getD []
            if platformUuid ≠ machine₁.id then
              (pre, some GoErr.identityMismatch)
            else
              let (trP, powErr) := drivePower env apiSocket machine₁.spec.power vm.state
              match powErr with
              | some e => (pre ++ trP, some e)
              | none =>
                let (trNic, nicErr) :=
                  reconcileNics env machine₁ nics (vm.config.devices.getD [])
                match nicErr with
                | some e => (pre ++ trP ++ trNic, some e)
                | none =>
                  let (trDisks, diskErr, machine₂) :=
                    attachDetachDisks env machine₁ vm.config
                  match diskErr with
                  | some e => (pre ++ trP ++ trNic ++ trDisks, some e)
                  | none =>
                    let machine₃ := { machine₂ with
                      status := { machine₂.status with
                        state :=
                          match machine₂.spec.power with
                          | PowerState.powerOn => MachineState.running
                          | PowerState.powerOff => MachineState.terminated,
                        nicStatus :=
                          machineNicStatusList nics machine₂.spec.networkInterfaces } }
                    match env.updateMachine machine₃ with
                    | Except.error e =>
                      (pre ++ trP ++ trNic ++ trDisks ++
                        [Effect.storeUpdateMachine machine₃], some e)
                    | Except.ok _ =>
                      (pre ++ trP ++ trNic ++ trDisks ++
                        [Effect.storeUpdateMachine machine₃], none)
  (Effect.vmmPing apiSocket :: rest.1, rest.2)

/-- `machine_controller.go` `reconcileMachine`: load the machine (absent is
success); deletion path; finalizer write-then-return; directories; image;
lazy API socket assignment (note: the pass continues after persisting the
socket); then the post-socket tail. -/
def reconcileMachine (env : Env) (id : GoStr) : List Effect × Option GoErr :=
  match env.getMachine id with
  | Except.error e =>
    ([Effect.storeGetMachine id], if e = GoErr.notFound then none else some e)
  | Except.ok machine =>
    if machine.deletedAt.isSome then
      let (trD, res) := deleteMachine env machine
      (Effect.storeGetMachine id :: trD, res)
    else if ¬ goSlicesContains machine.finalizers machineFinalizer then
      let machine' := { machine with finalizers := machine.finalizers ++ [machineFinalizer] }
      match env.updateMachine machine' with
      | Except.error e =>
        ([Effect.storeGetMachine id, Effect.storeUpdateMachine machine'], some e)
      | Except.ok _ =>
        ([Effect.storeGetMachine id, Effect.storeUpdateMachine machine'], none)
    else
      match env.makeDirs machine.id with
      | some e =>
        ([Effect.storeGetMachine id, Effect.makeMachineDirs machine.id], some e)
      | none =>
        let (trImg, requeue, imgErr) := reconcileImage env machine
        let tr1 := Effect.storeGetMachine id :: Effect.makeMachineDirs machine.id :: trImg
        match imgErr with
        | some e => (tr1, some e)
        | none =>
          if requeue then (tr1, none)
          else
            match machine.spec.apiSocketPath with
            | none =>
              match env.getFreeApiSocket with
              | Except.error e => (tr1 ++ [Effect.vmmGetFreeApiSocket], some e)
              | Except.ok sock =>
                let machine₁ := { machine with
                  spec := { machine.spec with apiSocketPath := sock } }
                match env.updateMachine machine₁ with
                | Except.error e =>
                  (tr1 ++ [Effect.vmmGetFreeApiSocket,
                    Effect.storeUpdateMachine machine₁], some e)
                | Except.ok machine₂ =>
                  let (trT, res) := reconcileAfterSocket env machine₂
                  (tr1 ++ Effect.vmmGetFreeApiSocket ::
                    Effect.storeUpdateMachine machine₁ :: trT, res)
            | some _ =>
              let (trT, res) := reconcileAfterSocket env machine
              (tr1 ++ trT, res)

/-- What a worker does with a popped id (`processNextWorkItem`): on a
reconcile error the id is re-queued through the rate limiter; on success the
failure counter is forgotten. -/
inductive WorkerAction
  | addRateLimited (id : GoStr)
  | forget (id : GoStr)
deriving DecidableEq

/-- `machine_controller.go` `processNextWorkItem` (the part after popping
`id`): every non-nil reconcile error leads to `AddRateLimited`. -/
def processNextWorkItem (env : Env) (id : GoStr) : WorkerAction :=
  if (reconcileMachine env id).2.isSome then WorkerAction.addRateLimited id
  else WorkerAction.forget id

/-! ## The VMM manager's CreateVM payload (`internal/vmm/manager.go`) -/

/-- `client.CpusConfig`. -/
structure CpusConfig where
  bootVcpus : Int
  maxVcpus : Int
deriving DecidableEq

/-- The `client.CreateVMJSONRequestBody` fields filled by `Manager.CreateVM`. -/
structure CreateVMBody where
  cpus : CpusConfig
  devices : Option (List DeviceConfig)
  disks : List DiskConfig
  memorySize : Int
  memoryShared : Option Bool
  consoleMode : GoStr
  serialMode : GoStr
  payloadFirmware : Option GoStr
deriving DecidableEq

/-- `Manager.CreateVM` payload construction: boot and max vCPUs are
`int(math.Max(float64(cpuMillis/1000), 1))` — Go integer division (truncation)
followed by a max with 1; the float64 round trip is exact for the magnitudes
representable here and is modelled as integer max.  Memory is `memoryBytes`
shared; console `Off`; serial `Tty`; the prepared root-FS file is the only
disk when an image is set; firmware from manager configuration. -/
def createVMPayload (firmwarePath : GoStr) (machine : Machine) : CreateVMBody :=
  let vcpus := max (Int.tdiv machine.spec.cpuMillis 1000) 1
  { cpus := { bootVcpus := vcpus, maxVcpus := vcpus }
    devices := none
    disks :=
      if machine.spec.image.getD [] ≠ [] then
        [{ id := none, path := machineRootFSFile machine.id }]
      else []
    memorySize := machine.spec.memoryBytes
    memoryShared := some true
    consoleMode := ['O', 'f', 'f']
    serialMode := ['T', 't', 'y']
    payloadFirmware := some firmwarePath }

/-! ## Effect classifiers and concrete test fixtures -/

/-- Does the effect write a machine object to the store? -/
def isStoreUpdateMachine : Effect → Bool
  | Effect.storeUpdateMachine _ => true
  | _ => false

/-- Does the effect remove the machine directory? -/
def isRemoveMachineDir : Effect → Bool
  | Effect.removeMachineDir _ => true
  | _ => false

/-- An environment in which every collaborator call succeeds, the machine
store is empty, the NIC store is empty, the image cache is still pulling and
no VM has been created yet. -/
def okEnv : Env where
  getMachine := fun _ => Except.error GoErr.notFound
  updateMachine := fun m => Except.ok m
  makeDirs := fun _ => none
  imageGet := fun _ => Except.error GoErr.imagePulling
  fileExists := fun _ => Except.ok true
  rawCreate := fun _ => none
  getFreeApiSocket := Except.ok (some ['s'])
  ping := fun _ => none
  nicGet := fun _ => Except.error GoErr.notFound
  nicCreate := fun n => Except.ok n
  nicUpdate := fun n => Except.ok n
  nicDelete := fun _ => none
  findPlugin := fun _ => none
  pluginApply := fun v _ =>
    Except.ok { name := v.name, handle := v.connectionHandle, state := VolumeState.pending }
  pluginDelete := fun _ _ => none
  getVM := fun _ => Except.error GoErr.vmNotCreated
  createVM := fun _ => none
  powerOn := fun _ => none
  powerOff := fun _ => none
  vmmDelete := fun _ => none
  removeDir := fun _ => none
  addDisk := fun _ _ => none
  removeDevice := fun _ _ => none
  addNIC := fun _ _ => none

/-- A live machine `"m1"`: finalizer present, no image, socket assigned, no
volumes, no NICs. -/
def baseMachine : Machine where
  id := ['m', '1']
  finalizers := [machineFinalizer]
  deletedAt := none
  spec :=
    { power := PowerState.powerOn, cpuMillis := 4000, memoryBytes := 1024,
      image := none, apiSocketPath := some ['s'], volumes := [],
      networkInterfaces := [] }
  status := { state := MachineState.pending, volumeStatus := [], nicStatus := [] }

/-- `baseMachine` without the `"machine"` finalizer. -/
def mNoFin : Machine := { baseMachine with finalizers := [] }

/-- `baseMachine` without an assigned API socket. -/
def mNoSock : Machine :=
  { baseMachine with spec := { baseMachine.spec with apiSocketPath := none } }

/-- `mNoSock` after the reconciler assigns socket `"s"`. -/
def mSockAssigned : Machine :=
  { mNoSock with spec := { mNoSock.spec with apiSocketPath := some ['s'] } }

/-- `baseMachine` marked deleted. -/
def mDel : Machine := { baseMachine with deletedAt := some 1 }

/-- A NIC spec entry named `"n"`. -/
def nicSpecW : NicSpec :=
  { name := ['n'], networkId := ['w'], ips := [], attributes := [], deletedAt := none }

/-- The NIC store object for `nicSpecW` on `baseMachine`, carrying the
`"machine"` finalizer. -/
def nicW : NetworkInterface :=
  { id := getNicID ['m', '1'] ['n'], name := ['n'], networkId := ['w'], ips := [],
    attributes := [], finalizers := [machineFinalizer],
    statusState := NicState.attached, statusHandle := ['h'], deletedAt := none }

/-- `baseMachine` marked deleted, with one referenced NIC. -/
def mDelNic : Machine :=
  { baseMachine with
    deletedAt := some 1
    spec := { baseMachine.spec with networkInterfaces := [nicSpecW] } }

/-- A volume spec named `"v"`. -/
def volW : VolumeSpec := { name := ['v'], deletedAt := none, connectionHandle := ['h'] }

/-- `baseMachine` with volume `"v"` currently Attached. -/
def mVol : Machine :=
  { baseMachine with
    spec := { baseMachine.spec with volumes := [volW] }
    status := { baseMachine.status with
      volumeStatus := [{ name := ['v'], handle := ['h'], state := VolumeState.attached }] } }

/-- Environment for the socket-assignment scenario: store holds `mNoSock`. -/
def envC4 : Env := { okEnv with getMachine := fun _ => Except.ok mNoSock }

/-- Environment for the finalizer-write scenario: store holds `mNoFin`. -/
def envC5 : Env := { okEnv with getMachine := fun _ => Except.ok mNoFin }

/-- Environment for the identity-mismatch scenario: store holds
`baseMachine`, the live VM reports platform uuid `"x"`. -/
def envC2 : Env :=
  { okEnv with
    getMachine := fun _ => Except.ok baseMachine
    getVM := fun _ => Except.ok
      { state := VmState.running,
        config := { platform := some { uuid := some ['x'] }, devices := none,
                    disks := none } } }

/-- Environment for the teardown scenario with a running VM whose PowerOff
and Delete calls succeed. -/
def envC3run : Env :=
  { okEnv with
    getVM := fun _ => Except.ok
      { state := VmState.running,
        config := { platform := none, devices := none, disks := none } } }

/-- `envC3run` with the VM already gone (state probe reads Shutdown), the
VMM `Delete` still succeeding with a nil error. -/
def envC3stopped : Env :=
  { envC3run with getVM := fun _ => Except.error GoErr.vmNotCreated }

/-- `envC3stopped` with the VMM `Delete` reporting the not-found sentinel. -/
def envC3notfound : Env :=
  { envC3stopped with vmmDelete := fun _ => some GoErr.notFound }

/-- Environment for the teardown-waits scenario: every NIC lookup finds
`nicW`, the VM was never created, the VMM Delete reports not-found. -/
def envC6 : Env :=
  { okEnv with
    nicGet := fun _ => Except.ok nicW
    vmmDelete := fun _ => some GoErr.notFound }

/-- Environment for the volume scenario: the plugin's Apply reports Pending
(a rewind attempt). -/
def envC7 : Env :=
  { okEnv with
    pluginApply := fun v _ =>
      Except.ok { name := v.name, handle := v.connectionHandle, state := VolumeState.pending } }

/-- `baseMachine` with the given cpuMillis. -/
def mkCpuMachine (cm : Int) : Machine :=
  { baseMachine with spec := { baseMachine.spec with cpuMillis := cm } }

theorem splitDD_ne_nil (s : GoStr) : splitDD s ≠ [] := by
  match s with
  | [] => simp [splitDD]
  | [c] => simp [splitDD]
  | c1 :: c2 :: rest =>
    by_cases h : c1 = '-' && c2 = '-'
    · simp [splitDD, h]
    · have := splitDD_ne_nil (c2 :: rest)
      simp only [splitDD, h]
      cases hsp : splitDD (c2 :: rest) with
      | nil => simp
      | cons p ps => simp

theorem hasDD_cons_false {c : Char} {s : GoStr} (h : hasDD (c :: s) = false) :
    hasDD s = false := by
  cases s with
  | nil => simp [hasDD]
  | cons c2 rest =>
    simp only [hasDD, Bool.or_eq_false_iff] at h
    exact h.2

/-- A string without `"--"` splits into a single piece. -/
theorem splitDD_no_sep {s : GoStr} (h : hasDD s = false) : splitDD s = [s] := by
  match s with
  | [] => simp [splitDD]
  | [c] => simp [splitDD]
  | c1 :: c2 :: rest =>
    simp only [hasDD, Bool.or_eq_false_iff] at h
    have ih := splitDD_no_sep h.2
    simp [splitDD, h.1, ih]

/-- Splitting off a separator after a prefix that neither contains `"--"` nor
ends in `'-'` (jointly phrased as `hasDD (s ++ ['-']) = false`). -/
theorem splitDD_append_sep (s t : GoStr) (h : hasDD (s ++ ['-']) = false) :
    splitDD (s ++ '-' :: '-' :: t) = s :: splitDD t := by
  match s with
  | [] => simp [splitDD]
  | [c] =>
    have hc : c ≠ '-' := by
      intro hcc
      subst hcc
      simp [hasDD] at h
    simp [splitDD, hc]
  | c1 :: c2 :: s' =>
    simp only [List.cons_append, hasDD, Bool.or_eq_false_iff] at h
    have ih := splitDD_append_sep (c2 :: s') t (by simpa using h.2)
    simp only [List.cons_append] at ih
    simp [splitDD, h.1, ih]

theorem hasDD_append_dash {s : GoStr} (h1 : hasDD s = false)
    (h2 : s.getLast? ≠ some '-') : hasDD (s ++ ['-']) = false := by
  match s with
  | [] => simp [hasDD]
  | [c] =>
    have hc : c ≠ '-' := by
      intro hcc
      subst hcc
      exact h2 (by decide)
    simp [hasDD, hc]
  | c1 :: c2 :: s' =>
    simp only [hasDD, Bool.or_eq_false_iff] at h1
    have h2' : (c2 :: s').getLast? ≠ some '-' := by
      simpa [List.getLast?_cons_cons] using h2
    have ih := hasDD_append_dash h1.2 h2'
    simp only [List.cons_append, hasDD, Bool.or_eq_false_iff]
    exact ⟨h1.1, by simpa using ih⟩

/-- C1 (amended): the NIC id encoding round-trips whenever `"--"` occurs in
neither `machineId` nor `nicName` and, additionally, `machineId` does not end
with the character `'-'`: then `getMachineNameFromNicID` and `getNicName`
applied to `getNicID machineId nicName` recover `machineId` and `nicName`. -/
theorem nicID_roundtrip (m n : GoStr) (hm : hasDD m = false) (hn : hasDD n = false)
    (hlast : m.getLast? ≠ some '-') :
    getMachineNameFromNicID (getNicID m n) = some m ∧
    getNicName (getNicID m n) = some n := by
  have hsplit : splitDD (getNicID m n) = [['N', 'I', 'C'], m, n] := by
    have h1 : splitDD (['N', 'I', 'C'] ++ '-' :: '-' :: (m ++ '-' :: '-' :: n))
        = ['N', 'I', 'C'] :: splitDD (m ++ '-' :: '-' :: n) :=
      splitDD_append_sep ['N', 'I', 'C'] _ (by decide)
    have h2 : splitDD (m ++ '-' :: '-' :: n) = m :: splitDD n :=
      splitDD_append_sep m n (hasDD_append_dash hm hlast)
    have henc : getNicID m n = ['N', 'I', 'C'] ++ '-' :: '-' :: (m ++ '-' :: '-' :: n) := rfl
    rw [henc, h1, h2, splitDD_no_sep hn]
  constructor
  · simp [getMachineNameFromNicID, hsplit]
  · simp [getNicName, hsplit]

/-- C1 counterexample: with `machineId = "a-"` and `nicName = "b"`, the
substring `"--"` appears in neither argument, yet decoding the encoded id
`"NIC--a---b"` yields machine name `"a"` and NIC name `"-b"`, so neither
component round-trips. -/
theorem nicID_roundtrip_cex :
    hasDD ['a', '-'] = false ∧ hasDD ['b'] = false ∧
    getMachineNameFromNicID (getNicID ['a', '-'] ['b']) = some ['a'] ∧
    getMachineNameFromNicID (getNicID ['a', '-'] ['b']) ≠ some ['a', '-'] ∧
    getNicName (getNicID ['a', '-'] ['b']) ≠ some ['b'] := by decide

/-- Witness instantiating `nicID_roundtrip` at `machineId = "a"`,
`nicName = "b"`. -/
theorem nicID_roundtrip_witness :
    getMachineNameFromNicID (getNicID ['a'] ['b']) = some ['a'] ∧
    getNicName (getNicID ['a'] ['b']) = some ['b'] :=
  nicID_roundtrip ['a'] ['b'] (by decide) (by decide) (by decide)

/-- C9: NIC id parsing is total and rejects malformed ids: when splitting `id`
on `"--"` does not yield exactly three parts with head `"NIC"`, both
`getNicName` and `getMachineNameFromNicID` return `none`, and the NIC-store
event handler enqueues nothing for such an id. -/
theorem malformed_nicID_rejected (id : GoStr)
    (h : ¬((splitDD id).length = 3 ∧ (splitDD id).getD 0 [] = ['N', 'I', 'C'])) :
    getNicName id = none ∧ getMachineNameFromNicID id = none ∧
    ∀ queue : List GoStr, nicEventHandle queue id = queue := by
  have hname : getNicName id = none := by
    by_cases hlen : (splitDD id).length = 3
    · have hhd : ¬(splitDD id).getD 0 [] = ['N', 'I', 'C'] := fun hc => h ⟨hlen, hc⟩
      simp only [getNicName]
      rw [if_pos hlen, if_neg hhd]
    · simp only [getNicName]
      rw [if_neg hlen]
  have hmach : getMachineNameFromNicID id = none := by
    by_cases hlen : (splitDD id).length = 3
    · have hhd : ¬(splitDD id).getD 0 [] = ['N', 'I', 'C'] := fun hc => h ⟨hlen, hc⟩
      simp only [getMachineNameFromNicID]
      rw [if_pos hlen, if_neg hhd]
    · simp only [getMachineNameFromNicID]
      rw [if_neg hlen]
  refine ⟨hname, hmach, fun queue => ?_⟩
  simp [nicEventHandle, hmach]

/-- Witness instantiating `malformed_nicID_rejected` at the id `"foo"`. -/
theorem malformed_nicID_rejected_witness :
    getNicName ['f', 'o', 'o'] = none ∧
    getMachineNameFromNicID ['f', 'o', 'o'] = none ∧
    nicEventHandle [] ['f', 'o', 'o'] = [] := by
  have h := malformed_nicID_rejected ['f', 'o', 'o'] (by decide)
  exact ⟨h.1, h.2.1, h.2.2 []⟩

/-! ## Finalizer helpers: facts used by several claims -/

theorem goSlicesContains_append_self (xs : List GoStr) (x : GoStr) :
    goSlicesContains (xs ++ [x]) x = true := by
  simp [goSlicesContains]

theorem goSlicesContains_delete (xs : List GoStr) (x : GoStr) :
    goSlicesContains (deleteSliceElement xs x) x = false := by
  simp only [goSlicesContains, deleteSliceElement, List.any_eq_false, decide_eq_true_eq,
    List.mem_filter]
  intro y hy
  have := hy.2
  simp only [ne_eq, decide_not, Bool.not_eq_true', decide_eq_false_iff_not] at this
  exact this

/-- C10: NIC finalizer updates are idempotent at the store level:
`addFinalizerToNIC` issues no store update and leaves the NIC unchanged when
the `"machine"` finalizer is already present, `removeFinalizerFromNIC` issues
no store update and leaves the NIC unchanged when it is absent, and applying
either operation twice produces the same NIC state (and no further store
traffic) as applying it once. -/
theorem nic_finalizer_idempotent (env : Env) (nic : NetworkInterface) :
    (goSlicesContains nic.finalizers machineFinalizer = true →
      addFinalizerToNIC env nic = ([], none, nic)) ∧
    (goSlicesContains nic.finalizers machineFinalizer = false →
      removeFinalizerFromNIC env nic = ([], none, nic)) ∧
    addFinalizerToNIC env (addFinalizerToNIC env nic).2.2 =
      ([], none, (addFinalizerToNIC env nic).2.2) ∧
    removeFinalizerFromNIC env (removeFinalizerFromNIC env nic).2.2 =
      ([], none, (removeFinalizerFromNIC env nic).2.2) := by
  refine ⟨fun h => by simp [addFinalizerToNIC, h],
    fun h => by simp [removeFinalizerFromNIC, h], ?_, ?_⟩
  · by_cases h : goSlicesContains nic.finalizers machineFinalizer
    · simp [addFinalizerToNIC, h]
    · have h' : goSlicesContains nic.finalizers machineFinalizer = false := by
        simpa using h
      simp only [addFinalizerToNIC, h', Bool.false_eq_true, if_false]
      cases hupd : env.nicUpdate { nic with finalizers := nic.finalizers ++ [machineFinalizer] } with
      | error e => simp [addFinalizerToNIC, goSlicesContains_append_self]
      | ok n => simp [addFinalizerToNIC, goSlicesContains_append_self]
  · by_cases h : goSlicesContains nic.finalizers machineFinalizer
    · simp only [removeFinalizerFromNIC, h, not_true_eq_false, if_false]
      cases hupd : env.nicUpdate
          { nic with finalizers := deleteSliceElement nic.finalizers machineFinalizer } with
      | error e => simp [removeFinalizerFromNIC, goSlicesContains_delete]
      | ok n => simp [removeFinalizerFromNIC, goSlicesContains_delete]
    · have h' : goSlicesContains nic.finalizers machineFinalizer = false := by
        simpa using h
      simp [removeFinalizerFromNIC, h']

/-- Witness instantiating `nic_finalizer_idempotent`: a NIC already carrying
the finalizer is untouched by add, and one without it is untouched by
remove. -/
theorem nic_finalizer_idempotent_witness :
    addFinalizerToNIC okEnv nicW = ([], none, nicW) ∧
    removeFinalizerFromNIC okEnv { nicW with finalizers := [] } =
      ([], none, { nicW with finalizers := [] }) :=
  ⟨(nic_finalizer_idempotent okEnv nicW).1 (by decide),
   (nic_finalizer_idempotent okEnv { nicW with finalizers := [] }).2.1 (by decide)⟩

/-- C5: for a machine that is not being deleted and does not yet carry the
`"machine"` finalizer, the reconcile pass appends the finalizer, persists the
machine, and returns success having performed no other effect: the whole
effect trace is one store read and one store write. -/
theorem finalizer_before_side_effects (env : Env) (id : GoStr) (m m2 : Machine)
    (hget : env.getMachine id = Except.ok m)
    (hdel : m.deletedAt = none)
    (hfin : goSlicesContains m.finalizers machineFinalizer = false)
    (hupd : env.updateMachine
        { m with finalizers := m.finalizers ++ [machineFinalizer] } = Except.ok m2) :
    reconcileMachine env id =
      ([Effect.storeGetMachine id,
        Effect.storeUpdateMachine { m with finalizers := m.finalizers ++ [machineFinalizer] }],
        none) := by
  simp only [hdel] at hupd
  simp [reconcileMachine, hget, hdel, hfin, hupd]

/-- Witness instantiating `finalizer_before_side_effects` on `mNoFin`. -/
theorem finalizer_before_side_effects_witness :
    reconcileMachine envC5 ['m', '1'] =
      ([Effect.storeGetMachine ['m', '1'],
        Effect.storeUpdateMachine { mNoFin with finalizers := [machineFinalizer] }], none) :=
  finalizer_before_side_effects envC5 ['m', '1'] mNoFin
    { mNoFin with finalizers := [machineFinalizer] } rfl rfl (by decide) rfl

/-- C8: the `CreateVM` payload uses `memoryBytes` of shared memory, serial
`Tty`, console `Off`, equal boot and max vCPUs computed as
`max(1, cpuMillis/1000)` with Go integer division; in particular cpuMillis 0,
1, 999, 1000 and 1001 all give 1 vCPU and 4000 gives 4. -/
theorem createVM_payload_shape :
    (∀ (fw : GoStr) (machine : Machine),
      (createVMPayload fw machine).memorySize = machine.spec.memoryBytes ∧
      (createVMPayload fw machine).memoryShared = some true ∧
      (createVMPayload fw machine).serialMode = ['T', 't', 'y'] ∧
      (createVMPayload fw machine).consoleMode = ['O', 'f', 'f'] ∧
      (createVMPayload fw machine).cpus.bootVcpus = (createVMPayload fw machine).cpus.maxVcpus ∧
      (createVMPayload fw machine).cpus.bootVcpus =
        max (Int.tdiv machine.spec.cpuMillis 1000) 1) ∧
    (createVMPayload [] (mkCpuMachine 0)).cpus.bootVcpus = 1 ∧
    (createVMPayload [] (mkCpuMachine 1)).cpus.bootVcpus = 1 ∧
    (createVMPayload [] (mkCpuMachine 999)).cpus.bootVcpus = 1 ∧
    (createVMPayload [] (mkCpuMachine 1000)).cpus.bootVcpus = 1 ∧
    (createVMPayload [] (mkCpuMachine 1001)).cpus.bootVcpus = 1 ∧
    (createVMPayload [] (mkCpuMachine 4000)).cpus.bootVcpus = 4 ∧
    (createVMPayload [] (mkCpuMachine 4000)).cpus.maxVcpus = 4 := by
  refine ⟨fun fw machine => ⟨rfl, rfl, rfl, rfl, rfl, rfl⟩, ?_, ?_, ?_, ?_, ?_, ?_, ?_⟩ <;> decide

/-- C3: evaluating teardown at its failing inputs.  When the live VM is
Running and `PowerOff` succeeds (returns a nil error), `deleteMachine`
nonetheless returns an error, because `!errors.Is(nil, ErrNotFound)` is true;
likewise when `Delete` succeeds.  Only the not-found sentinel lets teardown
run to completion. -/
theorem teardown_error_on_nil :
    (deleteMachine envC3run mDel).2 = some GoErr.wrappedNil ∧
    (deleteMachine envC3stopped mDel).2 = some GoErr.wrappedNil ∧
    deleteMachine envC3notfound mDel =
      ([Effect.vmmGetVM ['s'], Effect.vmmDeleteVM ['m', '1'],
        Effect.removeMachineDir ['m', '1'],
        Effect.storeUpdateMachine { mDel with finalizers := [] }], none) := by decide

theorem reconcileAfterSocket_ping_mem (env : Env) (m : Machine) :
    Effect.vmmPing (m.spec.apiSocketPath.getD []) ∈ (reconcileAfterSocket env m).1 := by
  unfold reconcileAfterSocket
  exact List.mem_cons_self _ _

/-- C4 (amended): when `apiSocketPath` is unset (and the earlier steps pass),
the reconcile pass obtains a free socket from the VMM manager, persists it on
the machine, and then continues the same pass with the persisted machine —
in particular the VMM ping is executed in that very pass, rather than the
pass returning immediately after the socket write. -/
theorem socket_assignment_continues (env : Env) (id : GoStr) (m : Machine) (sock : GoStr)
    (hget : env.getMachine id = Except.ok m)
    (hdel : m.deletedAt = none)
    (hfin : goSlicesContains m.finalizers machineFinalizer = true)
    (hdirs : env.makeDirs m.id = none)
    (himg : m.spec.image = none)
    (hsock : m.spec.apiSocketPath = none)
    (hfree : env.getFreeApiSocket = Except.ok (some sock))
    (hupd : env.updateMachine
        { m with spec := { m.spec with apiSocketPath := some sock } } =
      Except.ok { m with spec := { m.spec with apiSocketPath := some sock } }) :
    Effect.vmmGetFreeApiSocket ∈ (reconcileMachine env id).1 ∧
    Effect.storeUpdateMachine { m with spec := { m.spec with apiSocketPath := some sock } } ∈
      (reconcileMachine env id).1 ∧
    Effect.vmmPing sock ∈ (reconcileMachine env id).1 := by
  have himage : reconcileImage env m = ([], false, none) := by
    simp [reconcileImage, himg]
  have hrm : reconcileMachine env id =
      (Effect.storeGetMachine id :: Effect.makeMachineDirs m.id ::
        Effect.vmmGetFreeApiSocket ::
        Effect.storeUpdateMachine { m with spec := { m.spec with apiSocketPath := some sock } } ::
        (reconcileAfterSocket env
          { m with spec := { m.spec with apiSocketPath := some sock } }).1,
       (reconcileAfterSocket env
          { m with spec := { m.spec with apiSocketPath := some sock } }).2) := by
    simp only [hdel] at hupd
    simp [reconcileMachine, hget, hdel, hfin, hdirs, himage, hsock, hfree, hupd]
  have hping : Effect.vmmPing sock ∈
      (reconcileAfterSocket env
        { m with spec := { m.spec with apiSocketPath := some sock } }).1 :=
    reconcileAfterSocket_ping_mem env _
  rw [hrm]
  exact ⟨by simp, by simp,
    List.mem_cons_of_mem _ (List.mem_cons_of_mem _
      (List.mem_cons_of_mem _ (List.mem_cons_of_mem _ hping)))⟩

/-- C4 counterexample: on a machine with no API socket, the very reconcile
pass that assigns and persists the socket goes on to ping the VMM — the pass
does not stop after the socket write. -/
theorem socket_assignment_no_return_cex :
    mNoSock.spec.apiSocketPath = none ∧
    Effect.vmmPing ['s'] ∈ (reconcileMachine envC4 ['m', '1']).1 := by decide

/-- Witness instantiating `socket_assignment_continues` on `mNoSock`. -/
theorem socket_assignment_continues_witness :
    Effect.vmmGetFreeApiSocket ∈ (reconcileMachine envC4 ['m', '1']).1 ∧
    Effect.storeUpdateMachine mSockAssigned ∈ (reconcileMachine envC4 ['m', '1']).1 ∧
    Effect.vmmPing ['s'] ∈ (reconcileMachine envC4 ['m', '1']).1 :=
  socket_assignment_continues envC4 ['m', '1'] mNoSock ['s'] rfl rfl (by decide)
    rfl rfl rfl rfl rfl

/-- C2 (amended): a reconcile of a machine whose live VM reports a platform
uuid different from the machine id fails with the identity-mismatch error,
and the worker loop re-queues that machine id through the rate limiter with
backoff — exactly as it does for transient errors; there is no
non-retryable error classification. -/
theorem identity_mismatch_requeued (env : Env) (id : GoStr) (m : Machine)
    (s : GoStr) (vm : VmInfo)
    (hget : env.getMachine id = Except.ok m)
    (hdel : m.deletedAt = none)
    (hfin : goSlicesContains m.finalizers machineFinalizer = true)
    (hdirs : env.makeDirs m.id = none)
    (himg : m.spec.image = none)
    (hsock : m.spec.apiSocketPath = some s)
    (hping : env.ping s = none)
    (hnics : m.spec.networkInterfaces = [])
    (hvols : m.spec.volumes = [])
    (hupd : env.updateMachine
        { m with
          spec := { m.spec with volumes := [] }
          status := { m.status with volumeStatus := [] } } =
      Except.ok
        { m with
          spec := { m.spec with volumes := [] }
          status := { m.status with volumeStatus := [] } })
    (hvm : env.getVM s = Except.ok vm)
    (huuid : ((vm.config.platform.getD { uuid := none }).uuid).getD [] ≠ m.id) :
    (reconcileMachine env id).2 = some GoErr.identityMismatch ∧
    processNextWorkItem env id = WorkerAction.addRateLimited id := by
  have himage : reconcileImage env m = ([], false, none) := by
    simp [reconcileImage, himg]
  simp only [hdel] at hupd
  have hvolrec : reconcileVolumes env m =
      ([Effect.storeUpdateMachine
          { m with
            spec := { m.spec with volumes := [] }
            status := { m.status with volumeStatus := [] } }], none,
        { m with
          spec := { m.spec with volumes := [] }
          status := { m.status with volumeStatus := [] } }) := by
    simp [reconcileVolumes, reconcileVolumesLoop, hvols, hdel, hupd]
  have hafter : (reconcileAfterSocket env m).2 = some GoErr.identityMismatch := by
    simp [reconcileAfterSocket, hsock, hping, hnics, materialiseNicsLoop, hvolrec,
      hvm, huuid]
  have hrm2 : (reconcileMachine env id).2 = some GoErr.identityMismatch := by
    simp [reconcileMachine, hget, hdel, hfin, hdirs, himage, hsock, hafter]
  exact ⟨hrm2, by simp [processNextWorkItem, hrm2]⟩

/-- C2 counterexample: at a concrete machine whose live VM reports uuid
`"x"` while the machine id is `"m1"`, the reconcile fails with the
identity-mismatch error and the worker loop re-queues the id with backoff —
refuting "the worker loop does not automatically re-queue that machine id". -/
theorem identity_mismatch_requeued_cex :
    (reconcileMachine envC2 ['m', '1']).2 = some GoErr.identityMismatch ∧
    processNextWorkItem envC2 ['m', '1'] = WorkerAction.addRateLimited ['m', '1'] := by
  decide

/-- Witness instantiating `identity_mismatch_requeued` on `envC2`. -/
theorem identity_mismatch_requeued_witness :
    (reconcileMachine envC2 ['m', '1']).2 = some GoErr.identityMismatch ∧
    processNextWorkItem envC2 ['m', '1'] = WorkerAction.addRateLimited ['m', '1'] :=
  identity_mismatch_requeued envC2 ['m', '1'] baseMachine ['s']
    { state := VmState.running,
      config := { platform := some { uuid := some ['x'] }, devices := none,
                  disks := none } }
    rfl rfl (by decide) rfl rfl rfl rfl rfl rfl rfl rfl (by decide)

theorem reconcileVolumesLoop_preserves_attached (env : Env) (machine : Machine)
    (vols : List VolumeSpec) (tr : List Effect) (specs : List VolumeSpec)
    (statuses : List VolumeStatus)
    (h : reconcileVolumesLoop env machine vols = (tr, Except.ok (specs, statuses))) :
    ∀ vol ∈ vols,
      (getVolumeStatus machine.status.volumeStatus vol.name).state = VolumeState.attached →
      ∃ applied, env.pluginApply vol machine.id = Except.ok applied ∧
        { applied with state := VolumeState.attached } ∈ statuses := by
  induction vols generalizing tr specs statuses with
  | nil => intro vol hv; simp at hv
  | cons vol rest ih =>
    intro v hv hatt
    simp only [reconcileVolumesLoop] at h
    cases hfp : env.findPlugin vol with
    | some e => rw [hfp] at h; simp at h
    | none =>
      rw [hfp] at h
      by_cases hcond : vol.deletedAt.isSome ∧
          (getVolumeStatus machine.status.volumeStatus vol.name).state ≠ VolumeState.attached
      · rw [if_pos hcond] at h
        cases hpd : env.pluginDelete vol.connectionHandle machine.id with
        | some e => rw [hpd] at h; simp at h
        | none =>
          rw [hpd] at h
          rcases hrest : reconcileVolumesLoop env machine rest with ⟨tr', res'⟩
          rw [hrest] at h
          simp only [Prod.mk.injEq] at h
          rcases List.mem_cons.mp hv with rfl | hv'
          · exact absurd hatt hcond.2
          · have hres : reconcileVolumesLoop env machine rest = (tr', Except.ok (specs, statuses)) := by
              rw [hrest, h.2]
            exact ih tr' specs statuses hres v hv' hatt
      · rw [if_neg hcond] at h
        cases hap : env.pluginApply vol machine.id with
        | error e => rw [hap] at h; simp at h
        | ok applied =>
          rw [hap] at h
          rcases hrest : reconcileVolumesLoop env machine rest with ⟨tr', res'⟩
          rw [hrest] at h
          cases res' with
          | error e => simp at h
          | ok pr =>
            obtain ⟨specs', statuses'⟩ := pr
            simp only [Prod.mk.injEq, Except.ok.injEq] at h
            obtain ⟨htr, hsp, hst⟩ := h
            rcases List.mem_cons.mp hv with rfl | hv'
            · refine ⟨applied, hap, ?_⟩
              rw [← hst]
              have : (if (getVolumeStatus machine.status.volumeStatus v.name).state =
                    VolumeState.attached then
                  { applied with
                    state := (getVolumeStatus machine.status.volumeStatus v.name).state }
                else applied) = { applied with state := VolumeState.attached } := by
                rw [if_pos hatt, hatt]
              rw [this]
              exact List.mem_cons_self _ _
            · have hres : reconcileVolumesLoop env machine rest =
                  (tr', Except.ok (specs', statuses')) := by rw [hrest]
              have hmem := ih tr' specs' statuses' hres v hv' hatt
              obtain ⟨ap, hap', hm⟩ := hmem
              exact ⟨ap, hap', by rw [← hst]; exact List.mem_cons_of_mem _ hm⟩

/-- C7: `reconcileVolumes` never rewinds a volume's state machine: whenever
the pass succeeds, every volume whose current status is Attached is written
back to the store (inside the persisted machine object) with state still
Attached, regardless of the state the plugin's Apply returned. -/
theorem volumes_never_rewound (env : Env) (machine : Machine) (tr : List Effect)
    (m' : Machine) (h : reconcileVolumes env machine = (tr, none, m')) :
    ∀ vol ∈ machine.spec.volumes,
      (getVolumeStatus machine.status.volumeStatus vol.name).state = VolumeState.attached →
      (∃ applied, env.pluginApply vol machine.id = Except.ok applied ∧
        { applied with state := VolumeState.attached } ∈ m'.status.volumeStatus) ∧
      Effect.storeUpdateMachine m' ∈ tr := by
  unfold reconcileVolumes at h
  rcases hloop : reconcileVolumesLoop env machine machine.spec.volumes with ⟨trL, resL⟩
  rw [hloop] at h
  cases resL with
  | error e => simp at h
  | ok pr =>
    obtain ⟨specs, statuses⟩ := pr
    simp only [] at h
    split at h
    · simp at h
    · rename_i mr hupd
      simp only [Prod.mk.injEq] at h
      obtain ⟨htr, _, hm'⟩ := h
      intro vol hv hatt
      have hloop' : reconcileVolumesLoop env machine machine.spec.volumes =
          (trL, Except.ok (specs, statuses)) := by rw [hloop]
      obtain ⟨applied, hap, hmem⟩ :=
        reconcileVolumesLoop_preserves_attached env machine machine.spec.volumes
          trL specs statuses hloop' vol hv hatt
      constructor
      · exact ⟨applied, hap, by rw [← hm']; simpa using hmem⟩
      · rw [← htr, ← hm']
        simp

/-- Witness instantiating `volumes_never_rewound`: the plugin returns
Pending for an Attached volume, yet the persisted status is still Attached. -/
theorem volumes_never_rewound_witness :
    (∃ applied, envC7.pluginApply volW mVol.id = Except.ok applied ∧
      { applied with state := VolumeState.attached } ∈
        (reconcileVolumes envC7 mVol).2.2.status.volumeStatus) ∧
    Effect.storeUpdateMachine (reconcileVolumes envC7 mVol).2.2 ∈
      (reconcileVolumes envC7 mVol).1 :=
  volumes_never_rewound envC7 mVol (reconcileVolumes envC7 mVol).1
    (reconcileVolumes envC7 mVol).2.2 rfl volW (by decide) (by decide)

theorem getMachineState_trace (env : Env) (m : Machine) :
    (getMachineState env m).1 =
      [Effect.vmmGetVM (m.spec.apiSocketPath.getD [])] := by
  unfold getMachineState
  cases hx : env.getVM (m.spec.apiSocketPath.getD []) with
  | error e => simp [hx, apply_ite]
  | ok vm => simp [hx]

theorem removeFinalizerFromNIC_effects (env : Env) (nic : NetworkInterface) :
    (removeFinalizerFromNIC env nic).1.any isStoreUpdateMachine = false ∧
    (removeFinalizerFromNIC env nic).1.any isRemoveMachineDir = false := by
  unfold removeFinalizerFromNIC
  split
  · simp
  · cases hupd : env.nicUpdate
        { nic with finalizers := deleteSliceElement nic.finalizers machineFinalizer } with
    | error e => simp [hupd, isStoreUpdateMachine, isRemoveMachineDir]
    | ok a => simp [hupd, isStoreUpdateMachine, isRemoveMachineDir]

theorem deleteNicsLoop_no_machine_effects (env : Env) (mid : GoStr) (l : List NicSpec) :
    (deleteNicsLoop env mid l).1.any isStoreUpdateMachine = false ∧
    (deleteNicsLoop env mid l).1.any isRemoveMachineDir = false := by
  induction l with
  | nil => simp [deleteNicsLoop]
  | cons ni rest ih =>
    simp only [deleteNicsLoop]
    rcases hget : env.nicGet (getNicID mid ni.name) with e | nic
    · cases e with
      | notFound =>
        rcases hrest : deleteNicsLoop env mid rest with ⟨tr, allDel, res⟩
        rw [hrest] at ih
        simp only at ih
        simpa [isStoreUpdateMachine, isRemoveMachineDir] using ih
      | vmNotCreated => simp [isStoreUpdateMachine, isRemoveMachineDir]
      | imagePulling => simp [isStoreUpdateMachine, isRemoveMachineDir]
      | identityMismatch => simp [isStoreUpdateMachine, isRemoveMachineDir]
      | wrappedNil => simp [isStoreUpdateMachine, isRemoveMachineDir]
      | other => simp [isStoreUpdateMachine, isRemoveMachineDir]
    · simp only []
      rcases hF : removeFinalizerFromNIC env nic with ⟨trF, errF, nicF⟩
      have hFeff := removeFinalizerFromNIC_effects env nic
      rw [hF] at hFeff
      simp only at hFeff
      cases errF with
      | some e =>
        simp [List.any_append, isStoreUpdateMachine, isRemoveMachineDir, hFeff.1, hFeff.2]
      | none =>
        by_cases hc : env.nicDelete (getNicID mid ni.name) = none ∨
            env.nicDelete (getNicID mid ni.name) = some GoErr.notFound
        · rw [if_pos hc]
          rcases hrest : deleteNicsLoop env mid rest with ⟨tr, allDel, res⟩
          rw [hrest] at ih
          simp only at ih
          simp [List.any_append, isStoreUpdateMachine, isRemoveMachineDir, hFeff.1,
            hFeff.2, ih.1, ih.2]
        · rw [if_neg hc]
          simp [List.any_append, isStoreUpdateMachine, isRemoveMachineDir, hFeff.1,
            hFeff.2]

theorem deleteNicsLoop_allDeleted (env : Env) (mid : GoStr) (l : List NicSpec)
    (hall : (deleteNicsLoop env mid l).2.1 = true) :
    ∀ ni ∈ l, env.nicGet (getNicID mid ni.name) = Except.error GoErr.notFound := by
  induction l with
  | nil => intro ni h; simp at h
  | cons ni0 rest ih =>
    intro ni hni
    simp only [deleteNicsLoop] at hall
    rcases hget : env.nicGet (getNicID mid ni0.name) with e | nic
    · rw [hget] at hall
      cases e with
      | notFound =>
        rcases hrest : deleteNicsLoop env mid rest with ⟨tr, allDel, res⟩
        rw [hrest] at hall
        simp only at hall
        rcases List.mem_cons.mp hni with rfl | hni'
        · exact hget
        · have : (deleteNicsLoop env mid rest).2.1 = true := by rw [hrest]; exact hall
          exact ih this ni hni'
      | vmNotCreated => simp at hall
      | imagePulling => simp at hall
      | identityMismatch => simp at hall
      | wrappedNil => simp at hall
      | other => simp at hall
    · rw [hget] at hall
      simp only [] at hall
      rcases hF : removeFinalizerFromNIC env nic with ⟨trF, errF, nicF⟩
      rw [hF] at hall
      simp only at hall
      cases errF with
      | some e => simp at hall
      | none =>
        by_cases hc : env.nicDelete (getNicID mid ni0.name) = none ∨
            env.nicDelete (getNicID mid ni0.name) = some GoErr.notFound
        · rw [if_pos hc] at hall
          rcases hrest : deleteNicsLoop env mid rest with ⟨tr, allDel, res⟩
          rw [hrest] at hall
          simp at hall
        · rw [if_neg hc] at hall
          simp at hall

theorem deleteNicsLoop_waits (env : Env) (mid : GoStr) (l : List NicSpec)
    (hupd : ∀ nic, env.nicUpdate nic = Except.ok nic)
    (hdel : ∀ s, env.nicDelete s = none)
    (hget2 : ∀ s, env.nicGet s = Except.error GoErr.notFound ∨
      ∃ nic, env.nicGet s = Except.ok nic) :
    (deleteNicsLoop env mid l).2.2 = none := by
  induction l with
  | nil => simp [deleteNicsLoop]
  | cons ni rest ih =>
    simp only [deleteNicsLoop]
    rcases hget2 (getNicID mid ni.name) with hnf | ⟨nic, hok⟩
    · rw [hnf]
      rcases hrest : deleteNicsLoop env mid rest with ⟨tr, allDel, res⟩
      rw [hrest] at ih
      simpa using ih
    · rw [hok]
      simp only []
      have hrf : (removeFinalizerFromNIC env nic).2.1 = none := by
        unfold removeFinalizerFromNIC
        split
        · rfl
        · simp [hupd]
      rcases hF : removeFinalizerFromNIC env nic with ⟨trF, errF, nicF⟩
      rw [hF] at hrf
      simp only at hrf
      subst hrf
      rw [if_pos (Or.inl (hdel (getNicID mid ni.name)))]
      rcases hrest : deleteNicsLoop env mid rest with ⟨tr, allDel, res⟩
      rw [hrest] at ih
      simpa using ih

/-- C6: teardown is ordered.  (1) Unconditionally: if a pass of
`deleteMachine` writes any machine object to the store (the only such write
is the finalizer strip), then every NIC referenced by the machine spec was
already absent from the NIC store in that pass.  (2) If some referenced NIC
still exists (and the pass's collaborator calls behave: NIC updates and
deletes succeed, NIC lookups return an object or not-found, the VM probe
reports vm-not-created and the VMM delete reports not-found), the pass
returns no error, writes no machine object, and does not remove the machine
directory. -/
theorem teardown_ordered (env : Env) (machine : Machine) :
    ((deleteMachine env machine).1.any isStoreUpdateMachine = true →
      ∀ ni ∈ machine.spec.networkInterfaces,
        env.nicGet (getNicID machine.id ni.name) = Except.error GoErr.notFound) ∧
    ((∃ ni ∈ machine.spec.networkInterfaces,
        env.nicGet (getNicID machine.id ni.name) ≠ Except.error GoErr.notFound) →
      (∀ nic, env.nicUpdate nic = Except.ok nic) →
      (∀ s, env.nicDelete s = none) →
      (∀ s, env.nicGet s = Except.error GoErr.notFound ∨
        ∃ nic, env.nicGet s = Except.ok nic) →
      env.getVM (machine.spec.apiSocketPath.getD []) = Except.error GoErr.vmNotCreated →
      env.vmmDelete machine.id = some GoErr.notFound →
      (deleteMachine env machine).2 = none ∧
      (deleteMachine env machine).1.any isStoreUpdateMachine = false ∧
      (deleteMachine env machine).1.any isRemoveMachineDir = false) := by
  constructor
  · intro h
    unfold deleteMachine at h
    have htr := getMachineState_trace env machine
    rcases hgs : getMachineState env machine with ⟨trS, sres⟩
    rw [hgs] at h htr
    simp only at htr
    subst htr
    simp only [] at h
    cases sres with
    | error e => simp [isStoreUpdateMachine] at h
    | ok st =>
      simp only [] at h
      by_cases hst : st = VmState.running
      case pos =>
        rw [if_pos hst] at h
        simp only [] at h
        cases hfu : failUnlessNotFound (env.powerOff machine.id) with
        | some e =>
          rw [hfu] at h
          simp [isStoreUpdateMachine] at h
        | none =>
          rw [hfu] at h
          cases hfd : failUnlessNotFound (env.vmmDelete machine.id) with
          | some e2 =>
            rw [hfd] at h
            simp [isStoreUpdateMachine] at h
          | none =>
            rw [hfd] at h
            rcases hnl : deleteNicsLoop env machine.id machine.spec.networkInterfaces
              with ⟨trN, allDel, nicErr⟩
            have hpure := deleteNicsLoop_no_machine_effects env machine.id
              machine.spec.networkInterfaces
            rw [hnl] at hpure
            simp only at hpure
            rw [hnl] at h
            simp only [] at h
            cases nicErr with
            | some e3 =>
              simp [isStoreUpdateMachine, List.any_append, hpure.1] at h
            | none =>
              cases allDel with
              | false =>
                simp [isStoreUpdateMachine, List.any_append, hpure.1] at h
              | true =>
                exact deleteNicsLoop_allDeleted env machine.id
                  machine.spec.networkInterfaces (by rw [hnl])
      case neg =>
        rw [if_neg hst] at h
        simp only [] at h
        cases hfd : failUnlessNotFound (env.vmmDelete machine.id) with
        | some e2 =>
          rw [hfd] at h
          simp [isStoreUpdateMachine] at h
        | none =>
          rw [hfd] at h
          rcases hnl : deleteNicsLoop env machine.id machine.spec.networkInterfaces
            with ⟨trN, allDel, nicErr⟩
          have hpure := deleteNicsLoop_no_machine_effects env machine.id
            machine.spec.networkInterfaces
          rw [hnl] at hpure
          simp only at hpure
          rw [hnl] at h
          simp only [] at h
          cases nicErr with
          | some e3 =>
            simp [isStoreUpdateMachine, List.any_append, hpure.1] at h
          | none =>
            cases allDel with
            | false =>
              simp [isStoreUpdateMachine, List.any_append, hpure.1] at h
            | true =>
              exact deleteNicsLoop_allDeleted env machine.id
                machine.spec.networkInterfaces (by rw [hnl])
  · rintro ⟨ni0, hni0, hne⟩ hupd hdel hget2 hvm hvd
    have hgs : getMachineState env machine =
        ([Effect.vmmGetVM (machine.spec.apiSocketPath.getD [])],
          Except.ok VmState.shutdown) := by
      unfold getMachineState
      rw [hvm]
      simp
    have hpure := deleteNicsLoop_no_machine_effects env machine.id
      machine.spec.networkInterfaces
    have hwait := deleteNicsLoop_waits env machine.id machine.spec.networkInterfaces
      hupd hdel hget2
    have hfalse : (deleteNicsLoop env machine.id machine.spec.networkInterfaces).2.1
        = false := by
      by_contra hc
      have hc' : (deleteNicsLoop env machine.id machine.spec.networkInterfaces).2.1
          = true := by
        revert hc
        cases (deleteNicsLoop env machine.id machine.spec.networkInterfaces).2.1 <;> simp
      exact hne (deleteNicsLoop_allDeleted env machine.id
        machine.spec.networkInterfaces hc' ni0 hni0)
    rcases hnl : deleteNicsLoop env machine.id machine.spec.networkInterfaces
      with ⟨trN, allDel, nicErr⟩
    rw [hnl] at hpure hwait hfalse
    simp only at hpure hwait hfalse
    subst hwait
    subst hfalse
    have hdm : deleteMachine env machine =
        (Effect.vmmGetVM (machine.spec.apiSocketPath.getD []) ::
          Effect.vmmDeleteVM machine.id :: trN, none) := by
      simp [deleteMachine, hgs, hvd, hnl, failUnlessNotFound]
    rw [hdm]
    refine ⟨rfl, ?_, ?_⟩ <;>
      simp [List.any_cons, isStoreUpdateMachine, isRemoveMachineDir, hpure.1, hpure.2]

/-- Witness instantiating `teardown_ordered` on a deleted machine with one
still-existing NIC: the pass succeeds, strips no machine finalizer and
removes no directory. -/
theorem teardown_ordered_witness :
    (deleteMachine envC6 mDelNic).2 = none ∧
    (deleteMachine envC6 mDelNic).1.any isStoreUpdateMachine = false ∧
    (deleteMachine envC6 mDelNic).1.any isRemoveMachineDir = false :=
  (teardown_ordered envC6 mDelNic).2
    ⟨nicSpecW, by decide, fun hc => Except.noConfusion hc⟩
    (fun nic => rfl) (fun s => rfl)
    (fun s => Or.inr ⟨nicW, rfl⟩)
    rfl rfl

end CHP
